import Mathlib

/-!
# Verification of `core/cluster/raft/tcp_transport.go`

A shallow embedding of the TCP stream layer of the raft transport and of the
parts of the Go `net` package it calls.

* Go interface values are `Option`s over an inductive of dynamic types
  (`none` is the nil interface).
* Go pointers to listeners are `Option Nat` (`none` is the nil pointer); the
  listeners themselves live in a `World` heap, so that the stream layer and
  the owner of the listener alias the same object.
* A Go call either returns, panics or blocks: `Outcome`.
-/

namespace Raft

/-! ## Outcomes of a Go call -/

/-- Run-time panics the modelled code can raise. -/
inductive Panic where
  /-- Failed single-value type assertion `x.(T)`; the payload is the dynamic
  type of `x` (`none` for a nil interface). -/
  | interfaceConversion (dynamicType : Option String)
  /-- Dereference of a nil pointer. -/
  | nilDereference
  deriving DecidableEq, Repr

/-- Outcome of a Go call: it returns a value, panics, or blocks forever. -/
inductive Outcome (α : Type) where
  | returned (a : α)
  | panicked (p : Panic)
  | blocked
  deriving DecidableEq, Repr

namespace Outcome

/-- Sequencing of Go statements: a panic or a block stops the function. -/
def bind {α β : Type} (o : Outcome α) (f : α → Outcome β) : Outcome β :=
  match o with
  | returned a => f a
  | panicked p => panicked p
  | blocked => blocked

/-- Apply a function to the value a call returns. -/
def map {α β : Type} (f : α → β) (o : Outcome α) : Outcome β :=
  match o with
  | returned a => returned (f a)
  | panicked p => panicked p
  | blocked => blocked

/-- True when the call panicked. -/
def isPanic {α : Type} : Outcome α → Bool
  | panicked _ => true
  | _ => false

end Outcome

/-! ## The `net` package: addresses -/

/-- Go `net.IP`: a byte slice (4 bytes for IPv4, 16 for IPv6). -/
abbrev IP := List Nat

/-- Go `net.IPv4len`. -/
def IPv4len : Nat := 4

/-- Go `net.IPv6len`. -/
def IPv6len : Nat := 16

/-- Go `net.v4InV6Prefix`. -/
def v4InV6Prefix : IP := [0, 0, 0, 0, 0, 0, 0, 0, 0, 0, 0xff, 0xff]

/-- Go `net.IPv4(a, b, c, d)`: the 16-byte form of an IPv4 address. -/
def IPv4 (a b c d : Nat) : IP := v4InV6Prefix ++ [a, b, c, d]

/-- Go `net.IPv4zero`. -/
def IPv4zero : IP := IPv4 0 0 0 0

/-- Go `net.IPv6unspecified`. -/
def IPv6unspecified : IP := [0, 0, 0, 0, 0, 0, 0, 0, 0, 0, 0, 0, 0, 0, 0, 0]

/-- Go `IP.Equal`: an IPv4 address and its IPv6 form are equal. -/
def IP.Equal (ip x : IP) : Bool :=
  if ip.length = x.length then decide (ip = x)
  else if ip.length = IPv4len ∧ x.length = IPv6len then
    decide (x.take 12 = v4InV6Prefix) && decide (ip = x.drop 12)
  else if ip.length = IPv6len ∧ x.length = IPv4len then
    decide (ip.take 12 = v4InV6Prefix) && decide (ip.drop 12 = x)
  else false

/-- Go `IP.IsUnspecified`: `0.0.0.0` or `::`. -/
def IP.IsUnspecified (ip : IP) : Bool :=
  IP.Equal ip IPv4zero || IP.Equal ip IPv6unspecified

/-- Go `net.TCPAddr`. -/
structure TCPAddr where
  IP : IP
  Port : Int
  Zone : String
  deriving DecidableEq, Repr

/-- Dynamic value held by a non-nil `net.Addr` interface. -/
inductive NetAddr where
  /-- The dynamic type is `*net.TCPAddr`. -/
  | tcp (a : TCPAddr)
  /-- Any other implementation of `net.Addr` (`*net.UDPAddr`,
  `*net.UnixAddr`, ...), given by its `Network()` and `String()`. -/
  | other (network : String) (str : String)
  deriving DecidableEq, Repr

/-- Go `net.Addr` interface value; `none` is nil. -/
abbrev Addr := Option NetAddr

/-- The test `_, ok := a.(*net.TCPAddr)`. -/
def NetAddr.isTCP : NetAddr → Bool
  | .tcp _ => true
  | .other _ _ => false

/-- A TCP address whose IP is unspecified (a wildcard address). -/
def NetAddr.isUnspecified : NetAddr → Bool
  | .tcp a => a.IP.IsUnspecified
  | .other _ _ => false

/-! ## The `net` package: errors, connections, listeners -/

/-- Go `error` values that occur. -/
inductive Error where
  /-- Package variable `errNotAdvertisable`. -/
  | errNotAdvertisable
  /-- Package variable `errNotTCP`. -/
  | errNotTCP
  /-- Go `syscall.EINVAL`. -/
  | EINVAL
  /-- Go `net.ErrClosed` ("use of closed network connection"). -/
  | ErrClosed
  /-- Go `*net.OpError`. -/
  | OpError (op : String) (net : String) (addr : Addr) (err : Error)
  deriving DecidableEq, Repr

/-- An established connection (`net.Conn`), identified by a number. -/
structure Conn where
  id : Nat
  deriving DecidableEq, Repr

/-- The network descriptor of a listener (`netFD`). -/
structure NetFD where
  /-- Bound local address. -/
  laddr : TCPAddr
  /-- Whether the owner has closed the listener. -/
  closed : Bool
  /-- Inbound connections that completed the handshake, oldest first. -/
  backlog : List Conn
  deriving DecidableEq, Repr

/-- Go `net.TCPListener`; the zero value has no descriptor. -/
structure TCPListener where
  fd : Option NetFD
  deriving DecidableEq, Repr

/-- The heap of listeners, indexed by address. -/
structure World where
  listeners : Nat → TCPListener

/-- Go `*net.TCPListener`; `none` is the nil pointer. -/
abbrev TCPListenerPtr := Option Nat

/-- Dynamic value held by a non-nil `net.Listener` interface. -/
inductive ListenerValue where
  /-- The dynamic type is `*net.TCPListener` (the pointer may be nil). -/
  | tcp (p : TCPListenerPtr)
  /-- Any other implementation, given by the name of its dynamic type. -/
  | other (typeName : String)
  deriving DecidableEq, Repr

/-- Go `net.Listener` interface value; `none` is nil. -/
abbrev Listener := Option ListenerValue

/-- Replace the listener at address `p`. -/
def World.set (w : World) (p : Nat) (l : TCPListener) : World :=
  ⟨fun q => if q = p then l else w.listeners q⟩

/-- Go `(*TCPListener).Addr`: `return l.fd.laddr`. -/
def TCPListener.Addr (l : TCPListenerPtr) (w : World) : Outcome Addr :=
  match l with
  | none => .panicked .nilDereference
  | some p =>
    match (w.listeners p).fd with
    | none => .panicked .nilDereference
    | some fd => .returned (some (.tcp fd.laddr))

/-- Go `(*TCPListener).Accept`: `EINVAL` on a nil or zero listener, an
`OpError` wrapping `ErrClosed` on a closed one, otherwise the oldest pending
connection; it blocks while none is pending. -/
def TCPListener.Accept (l : TCPListenerPtr) (w : World) :
    Outcome (Option Conn × Option Error) × World :=
  match l with
  | none => (.returned (none, some .EINVAL), w)
  | some p =>
    match (w.listeners p).fd with
    | none => (.returned (none, some .EINVAL), w)
    | some fd =>
      if fd.closed then
        (.returned (none, some (.OpError "accept" "tcp" (some (.tcp fd.laddr)) .ErrClosed)), w)
      else
        match fd.backlog with
        | [] => (.blocked, w)
        | c :: rest =>
          (.returned (some c, none), w.set p ⟨some { fd with backlog := rest }⟩)

/-- Go `(*TCPListener).Close`, called by the owner of the listener. -/
def TCPListener.Close (l : TCPListenerPtr) (w : World) : Outcome (Option Error) × World :=
  match l with
  | none => (.returned (some .EINVAL), w)
  | some p =>
    match (w.listeners p).fd with
    | none => (.returned (some .EINVAL), w)
    | some fd =>
      if fd.closed then
        (.returned (some (.OpError "close" "tcp" (some (.tcp fd.laddr)) .ErrClosed)), w)
      else
        (.returned none, w.set p ⟨some { fd with closed := true }⟩)

/-- The single-value type assertion `listener.(*net.TCPListener)`: it panics
unless the dynamic type is `*net.TCPListener`. -/
def assertTCPListener (listener : Listener) : Outcome TCPListenerPtr :=
  match listener with
  | none => .panicked (.interfaceConversion none)
  | some (.tcp p) => .returned p
  | some (.other typeName) => .panicked (.interfaceConversion (some typeName))

/-! ## `tcp_transport.go` -/

/-- Go `TCPStreamLayer`. -/
structure TCPStreamLayer where
  advertise : Addr
  listener : TCPListenerPtr
  deriving DecidableEq, Repr

/-- Go `newTCPTransport`.  The bind, the check of the advertise address and
the two error returns are commented out in the source, so what remains is the
type assertion, the construction of the stream layer and the call of
`transportCreator`.  `NT` is the type `*NetworkTransport`. -/
def newTCPTransport {NT : Type} (_bindAddr : String) (advertise : Addr) (_maxPool : Int)
    (_timeout : Int) (transportCreator : TCPStreamLayer → NT) (listener : Listener) :
    Outcome (NT × Option Error) :=
  (assertTCPListener listener).bind fun l =>
    let stream : TCPStreamLayer := { advertise := advertise, listener := l }
    let trans := transportCreator stream
    .returned (trans, none)

/-- Go `NewTCPTransport`.  `NewNetworkTransport` is defined outside the given
sources and is a parameter; `W` is `io.Writer`. -/
def NewTCPTransport {NT W : Type} (NewNetworkTransport : TCPStreamLayer → Int → Int → W → NT)
    (bindAddr : String) (advertise : Addr) (maxPool : Int) (timeout : Int) (logOutput : W)
    (listener : Listener) : Outcome (NT × Option Error) :=
  newTCPTransport bindAddr advertise maxPool timeout
    (fun stream => NewNetworkTransport stream maxPool timeout logOutput) listener

/-- Go `NewTCPTransportWithLogger`.  `NewNetworkTransportWithLogger` is defined
outside the given sources and is a parameter. -/
def NewTCPTransportWithLogger {NT : Type}
    (NewNetworkTransportWithLogger : TCPStreamLayer → Int → Int → NT)
    (bindAddr : String) (advertise : Addr) (maxPool : Int) (timeout : Int)
    (listener : Listener) : Outcome (NT × Option Error) :=
  newTCPTransport bindAddr advertise maxPool timeout
    (fun stream => NewNetworkTransportWithLogger stream maxPool timeout) listener

/-- Go `(*TCPStreamLayer).Accept`: `return t.listener.Accept()`. -/
def TCPStreamLayer.Accept (t : TCPStreamLayer) (w : World) :
    Outcome (Option Conn × Option Error) × World :=
  TCPListener.Accept t.listener w

/-- Go `(*TCPStreamLayer).Close`: `return nil`; the call of the listener's
`Close` is commented out.  The result is the error, the stream layer after the
call and the world after the call. -/
def TCPStreamLayer.Close (t : TCPStreamLayer) (w : World) :
    Option Error × TCPStreamLayer × World :=
  (none, t, w)

/-- Go `(*TCPStreamLayer).Addr`. -/
def TCPStreamLayer.Addr (t : TCPStreamLayer) (w : World) : Outcome Addr :=
  if t.advertise ≠ none then .returned t.advertise
  else TCPListener.Addr t.listener w

/-- `n` successive calls of `Close`: the errors returned, in order, and the
stream layer and the world after the last call. -/
def closeTimes (n : Nat) (t : TCPStreamLayer) (w : World) :
    List (Option Error) × TCPStreamLayer × World :=
  match n with
  | 0 => ([], t, w)
  | k + 1 =>
    let r := t.Close w
    let rest := closeTimes k r.2.1 r.2.2
    (r.1 :: rest.1, rest.2)

/-! ## Sample values -/

/-- The address `10.0.0.5:9000`. -/
def addr10 : NetAddr := .tcp ⟨IPv4 10 0 0 5, 9000, ""⟩

/-- The wildcard address `0.0.0.0:9000`. -/
def addrWildcard : NetAddr := .tcp ⟨IPv4 0 0 0 0, 9000, ""⟩

/-- A unix-domain address, whose dynamic type is not `*net.TCPAddr`. -/
def addrUnix : NetAddr := .other "unix" "/tmp/raft.sock"

/-- The address `0.0.0.0:9000` as a listener made by
`net.Listen("tcp4", "0.0.0.0:9000")` reports it: an IP of 4 bytes. -/
def addrBoundWildcard : NetAddr := .tcp ⟨[0, 0, 0, 0], 9000, ""⟩

/-- A world in which every address holds an open listener bound to
`127.0.0.1:40123` with one pending connection, except address `1`, whose
listener is bound to `0.0.0.0:9000`, and address `2`, whose listener has been
closed by its owner.  Bound addresses have IPs of 4 bytes, as IPv4 listeners
report them. -/
def sampleWorld : World :=
  ⟨fun p =>
    if p = 1 then ⟨some ⟨⟨[0, 0, 0, 0], 9000, ""⟩, false, []⟩⟩
    else if p = 2 then ⟨some ⟨⟨[127, 0, 0, 1], 40123, ""⟩, true, [⟨7⟩]⟩⟩
    else ⟨some ⟨⟨[127, 0, 0, 1], 40123, ""⟩, false, [⟨7⟩]⟩⟩⟩

end Raft

/-!
# Verification of `core/util/bytes.go`

Go strings are modelled as sequences of Unicode characters (a Go string that is
valid UTF-8), byte slices as lists of numbers below 256, `uint64` values as
natural numbers with explicit reduction modulo 2^64, and a run-time panic as
`none`.
-/

namespace Util

/-- Go `error` values of the package that occur. -/
inductive Error where
  /-- Package variable `errInvalidByteQuantity`. -/
  | errInvalidByteQuantity
  deriving DecidableEq, Repr

/-- Number of values of a Go `uint64`: arithmetic on it is modulo this. -/
def uint64Mod : Nat := 2 ^ 64

/-! ### `BytesToUint64`, `Uint64toBytes` -/

/-- Go `BytesToUint64`.  Bytes are numbers below 256; `none` is the run-time
panic (index out of range) that the empty slice causes, `length-1` wrapping
around as a `uint`. -/
def BytesToUint64 (b : List Nat) : Option Nat :=
  if b.length = 0 then none
  else
    let v := (List.range (b.length - 1)).foldl
      (fun v i => ((v + b.getD i 0) % uint64Mod * 2 ^ 8) % uint64Mod) 0
    some ((v + b.getD (b.length - 1) 0) % uint64Mod)

/-- Go `Uint64toBytes`: the slice after the call; `none` is the run-time panic
(index out of range) of a slice shorter than 8. -/
def Uint64toBytes (b : List Nat) (v : Nat) : Option (List Nat) :=
  (List.range 8).foldlM
    (fun b i => if 7 - i < b.length then some (b.set (7 - i) ((v >>> (i * 8)) % 256)) else none)
    b

/-! ### `ByteSize` -/

/-- Go constant `BYTE` (`1.0`, an untyped constant, used as a whole number). -/
def BYTE : Nat := 1

/-- Go constant `KILOBYTE`. -/
def KILOBYTE : Nat := 1024 * BYTE

/-- Go constant `MEGABYTE`. -/
def MEGABYTE : Nat := 1024 * KILOBYTE

/-- Go constant `GIGABYTE`. -/
def GIGABYTE : Nat := 1024 * MEGABYTE

/-- Go constant `TERABYTE`. -/
def TERABYTE : Nat := 1024 * GIGABYTE

/-- Number of bits by which `n` exceeds the 24 bits of a `float32` significand. -/
def excessBits : Nat → Nat → Nat
  | 0, _ => 0
  | fuel + 1, n => if n < 2 ^ 24 then 0 else excessBits fuel (n / 2) + 1

/-- Quotient of `num` by `den` rounded to the nearest integer, ties to even. -/
def roundHalfEven (num den : Nat) : Nat :=
  let q := num / den
  let r := num % den
  if 2 * r > den ∨ (2 * r = den ∧ q % 2 = 1) then q + 1 else q

/-- Go conversion `float32(bytes)` of a `uint64`: the value, always a whole
number, of the nearest `float32`, ties to even. -/
def float32OfUint64 (n : Nat) : Nat :=
  let e := excessBits 64 n
  roundHalfEven n (2 ^ e) * 2 ^ e

/-- Decimal digits of a number, with fuel. -/
def decimalDigits : Nat → Nat → List Char
  | 0, _ => []
  | fuel + 1, n =>
    if n < 10 then [Char.ofNat (48 + n)]
    else decimalDigits fuel (n / 10) ++ [Char.ofNat (48 + n % 10)]

/-- Go `fmt.Sprintf("%.1f", value)` for the `float32` of value `num / den`
(`den` a power of two): the decimal with one digit after the point nearest to
the exact value, ties to even. -/
def sprintf1f (num den : Nat) : List Char :=
  let t := roundHalfEven (10 * num) den
  decimalDigits 40 (t / 10) ++ ['.'] ++ decimalDigits 1 (t % 10)

/-- Go `strings.TrimSuffix`. -/
def TrimSuffix (s suffix : List Char) : List Char :=
  if suffix.isSuffixOf s then s.take (s.length - suffix.length) else s

/-- Go `ByteSize`. The `float32` value is kept as the exact fraction
`float32(bytes) / unit`. -/
def ByteSize (bytes : Nat) : String :=
  let value := float32OfUint64 bytes
  let finish (den : Nat) (unit : String) : String :=
    let stringValue := sprintf1f value den
    let stringValue := TrimSuffix stringValue ['.', '0']
    String.mk stringValue ++ unit
  if bytes ≥ TERABYTE then finish TERABYTE "T"
  else if bytes ≥ GIGABYTE then finish GIGABYTE "G"
  else if bytes ≥ MEGABYTE then finish MEGABYTE "M"
  else if bytes ≥ KILOBYTE then finish KILOBYTE "K"
  else if bytes ≥ BYTE then finish 1 "B"
  else if bytes = 0 then "0"
  else finish 1 ""

/-! ### `ToBytes` -/

/-- Go `unicode.IsSpace`. -/
def isSpace (c : Char) : Bool :=
  let n := c.toNat
  (9 ≤ n && n ≤ 13) || n = 0x20 || n = 0x85 || n = 0xA0 || n = 0x1680 ||
  (0x2000 ≤ n && n ≤ 0x200a) || n = 0x2028 || n = 0x2029 || n = 0x202f || n = 0x205f ||
  n = 0x3000

/-- Go `strings.TrimSpace`. -/
def TrimSpace (s : List Char) : List Char :=
  ((s.dropWhile isSpace).reverse.dropWhile isSpace).reverse

/-- Regular expression `\d`: an ASCII digit. -/
def isDigit (c : Char) : Bool := 48 ≤ c.toNat && c.toNat ≤ 57

/-- The class `[KMGT]` under `(?i)`: the letters, their lower case, and the
Kelvin sign U+212A, which Go folds with `k`. -/
def isKMGT (c : Char) : Bool :=
  c = 'K' || c = 'M' || c = 'G' || c = 'T' || c = 'k' || c = 'm' || c = 'g' || c = 't' ||
  c.toNat = 0x212A

/-- The literal `B` under `(?i)`. -/
def isB (c : Char) : Bool := c = 'B' || c = 'b'

/-- The group `([KMGT]B?|B)` matched against a whole string. -/
def isUnit (u : List Char) : Bool :=
  match u with
  | [c] => isKMGT c || isB c
  | [c, d] => isKMGT c && isB d
  | _ => false

/-- Go `bytesPattern.FindStringSubmatch` for the pattern
`(?i)^(-?\d+)([KMGT]B?|B)$`: the groups 1 and 2, or `none` when the string does
not match.  A unit begins with a character that is no digit, so group 1 is the
optional sign and all the digits that follow it. -/
def bytesPatternSubmatch (s : List Char) : Option (List Char × List Char) :=
  let sign : List Char := if s.head? = some '-' then ['-'] else []
  let rest := s.drop sign.length
  let digits := rest.takeWhile isDigit
  let unit := rest.dropWhile isDigit
  if digits ≠ [] ∧ isUnit unit then some (sign ++ digits, unit) else none

/-- Value of a string of decimal digits. -/
def decimalValue (s : List Char) : Nat :=
  s.foldl (fun n c => 10 * n + (c.toNat - 48)) 0

/-- Go `strconv.ParseUint(s, 10, 0)` on a 64-bit platform: `none` is an error
(a character that is no digit, or a value of 2^64 or more). -/
def ParseUint (s : List Char) : Option Nat :=
  if s = [] ∨ ¬ s.all isDigit then none
  else
    let n := decimalValue s
    if n < uint64Mod then some n else none

/-- Go `strings.ToUpper` on the characters that group 2 can hold: an ASCII
lower-case letter is raised, and the Kelvin sign U+212A is left as it is
(`unicode.ToUpper` maps it to itself). -/
def toUpperChar (c : Char) : Char :=
  if 97 ≤ c.toNat ∧ c.toNat ≤ 122 then Char.ofNat (c.toNat - 32) else c

/-- First byte of the UTF-8 encoding of a character. -/
def leadByte (c : Char) : Nat :=
  let n := c.toNat
  if n < 0x80 then n
  else if n < 0x800 then 0xC0 + n / 2 ^ 6
  else if n < 0x10000 then 0xE0 + n / 2 ^ 12
  else 0xF0 + n / 2 ^ 18

/-- Go `ToBytes`.  The switch on `unit[:1]`, the first byte of the unit in
upper case, compares it with the bytes of `"T"`, `"G"`, `"M"`, `"K"` and `"B"`
(84, 71, 77, 75, 66) and has no default, so `bytes` stays 0 otherwise; the
products are `uint64` products. -/
def ToBytes (s : String) : Nat × Option Error :=
  match bytesPatternSubmatch (TrimSpace s.data) with
  | none => (0, some .errInvalidByteQuantity)
  | some (digits, unit) =>
    match ParseUint digits with
    | none => (0, some .errInvalidByteQuantity)
    | some value =>
      if value < 1 then (0, some .errInvalidByteQuantity)
      else
        let unit := unit.map toUpperChar
        let first := (unit.head?.map leadByte).getD 0
        let bytes :=
          if first = 84 then value * TERABYTE % uint64Mod
          else if first = 71 then value * GIGABYTE % uint64Mod
          else if first = 77 then value * MEGABYTE % uint64Mod
          else if first = 75 then value * KILOBYTE % uint64Mod
          else if first = 66 then value * BYTE % uint64Mod
          else 0
        (bytes, none)

/-! ### `GetSplitFunc` -/

/-- Index of the first instance of `sep` in `s`, if any. -/
def indexOpt (sep : List Nat) : List Nat → Option Nat
  | [] => if sep = [] then some 0 else none
  | x :: t =>
    if sep.isPrefixOf (x :: t) then some 0
    else (indexOpt sep t).map (· + 1)

/-- Go `bytes.Index`: the index of the first instance of `sep` in `s`, or -1. -/
def Index (s sep : List Nat) : Int :=
  match indexOpt sep s with
  | some i => i
  | none => -1

/-- Bytes held by a Go byte slice; `none` is the nil slice, of length 0. -/
def sliceBytes (data : Option (List Nat)) : List Nat :=
  data.getD []

/-- Go slice expression `data[0:i]`, for `i` within the length: a nil slice
stays nil, and a non-nil slice, even an empty one, stays non-nil. -/
def sliceTo (data : Option (List Nat)) (i : Nat) : Option (List Nat) :=
  data.map (List.take i)

/-- The function returned by Go `GetSplitFunc(split)`.  A slice is `none` when
it is nil, both for `data` and for the token.  The separator is used through
its length and its bytes only, so it is a list. -/
def GetSplitFunc (split : List Nat) (data : Option (List Nat)) (atEOF : Bool) :
    Int × Option (List Nat) × Option Error :=
  let sLen : Int := split.length
  let dataLen : Int := (sliceBytes data).length
  if atEOF ∧ dataLen = 0 then (0, none, none)
  else
    let i := Index (sliceBytes data) split
    if i ≥ 0 then (i + sLen, sliceTo data i.toNat, none)
    else if atEOF then (dataLen, data, none)
    else (0, none, none)

/-! ### Definitions stated from the claims -/

/-- The big-endian encoding of a 64-bit value in 8 bytes, most significant
byte first (stated from the claim, not from the code). -/
def specBigEndian (v : Nat) : List Nat :=
  [v / 2 ^ 56 % 256, v / 2 ^ 48 % 256, v / 2 ^ 40 % 256, v / 2 ^ 32 % 256,
   v / 2 ^ 24 % 256, v / 2 ^ 16 % 256, v / 2 ^ 8 % 256, v % 256]

/-- The separator `sep` occurs in `s` at index `j` (stated from the claim). -/
def occursAt (sep s : List Nat) (j : Nat) : Prop :=
  j ≤ s.length ∧ sep.isPrefixOf (s.drop j) = true

/-- The first occurrence of `sep` in `s` is at index `i` (stated from the
claim). -/
def firstOccurrenceAt (sep s : List Nat) (i : Nat) : Prop :=
  occursAt sep s i ∧ ∀ j, j < i → ¬ occursAt sep s j

/-- The units of `ByteSize` with their letters (stated from its docstring). -/
def specUnits : List (Nat × Char) :=
  [(1, 'B'), (1024, 'K'), (1024 ^ 2, 'M'), (1024 ^ 3, 'G'), (1024 ^ 4, 'T')]

/-- Power of 1024 that a unit letter stands for (stated from the claim):
B, K, M, G, T in either case. -/
def specLetterPower (c : Char) : Option Nat :=
  if c = 'B' ∨ c = 'b' then some 0
  else if c = 'K' ∨ c = 'k' then some 1
  else if c = 'M' ∨ c = 'm' then some 2
  else if c = 'G' ∨ c = 'g' then some 3
  else if c = 'T' ∨ c = 't' then some 4
  else none

/-- Power of 1024 that a unit of measurement stands for (stated from the
claim): K, M, G or T optionally followed by B, or a lone B, in either case. -/
def specUnitPower (u : List Char) : Option Nat :=
  match u with
  | [c] => specLetterPower c
  | [c, b] =>
    if (b = 'B' ∨ b = 'b') ∧ ¬ (c = 'B' ∨ c = 'b') then specLetterPower c else none
  | _ => none

/-- The string `t` is the positive decimal integer `n` (at least 1, fitting in
64 bits, no sign) immediately followed by a unit of measurement that stands
for `1024 ^ k` (stated from the claim). -/
def specQuantity (t : List Char) (n k : Nat) : Prop :=
  ∃ digits unit : List Char, t = digits ++ unit ∧ digits ≠ [] ∧
    (∀ c ∈ digits, isDigit c = true) ∧ decimalValue digits = n ∧ 1 ≤ n ∧ n < 2 ^ 64 ∧
    specUnitPower unit = some k

/-! ### Sample values -/

/-- The string made of the digit `1` and the Kelvin sign U+212A. -/
def kelvinQuantity : String := String.mk ['1', Char.ofNat 0x212A]

end Util

namespace Raft

/-! ## Helper lemmas -/

/-- With a listener of dynamic type `*net.TCPListener` the constructor
returns the transport made from the stream layer, and a nil error. -/
theorem newTCPTransport_tcp {NT : Type} (bindAddr : String) (advertise : Addr)
    (maxPool timeout : Int) (creator : TCPStreamLayer → NT) (p : TCPListenerPtr) :
    newTCPTransport bindAddr advertise maxPool timeout creator (some (.tcp p))
      = .returned (creator ⟨advertise, p⟩, none) := rfl

/-- Whenever the constructor returns, the listener had dynamic type
`*net.TCPListener` and the result is the transport made from the stream layer
holding the advertise address and that listener, with a nil error. -/
theorem newTCPTransport_returned {NT : Type} {bindAddr : String} {advertise : Addr}
    {maxPool timeout : Int} {creator : TCPStreamLayer → NT} {listener : Listener}
    {r : NT × Option Error}
    (h : newTCPTransport bindAddr advertise maxPool timeout creator listener = .returned r) :
    ∃ p, listener = some (.tcp p) ∧ r = (creator ⟨advertise, p⟩, none) := by
  rcases listener with _ | ⟨p⟩ | name
  · simp [newTCPTransport, assertTCPListener, Outcome.bind] at h
  · refine ⟨p, rfl, ?_⟩
    simp only [newTCPTransport, assertTCPListener, Outcome.bind, Outcome.returned.injEq] at h
    exact h.symm
  · simp [newTCPTransport, assertTCPListener, Outcome.bind] at h

/-- The constructor returns no error: whenever it returns, the error is nil. -/
theorem newTCPTransport_error_nil {NT : Type} {bindAddr : String} {advertise : Addr}
    {maxPool timeout : Int} {creator : TCPStreamLayer → NT} {listener : Listener}
    {r : NT × Option Error}
    (h : newTCPTransport bindAddr advertise maxPool timeout creator listener = .returned r) :
    r.2 = none := by
  obtain ⟨p, _, hr⟩ := newTCPTransport_returned h
  rw [hr]

/-- With an advertise address set, `Addr` returns it in every world. -/
theorem Addr_advertise (A : NetAddr) (p : TCPListenerPtr) (w : World) :
    TCPStreamLayer.Addr ⟨some A, p⟩ w = .returned (some A) := by
  simp [TCPStreamLayer.Addr]

/-- Without an advertise address, `Addr` is the address of the listener. -/
theorem Addr_no_advertise (p : TCPListenerPtr) (w : World) :
    TCPStreamLayer.Addr ⟨none, p⟩ w = TCPListener.Addr p w := by
  simp [TCPStreamLayer.Addr]

/-- Calling `Close` any number of times returns nil each time and changes
neither the stream layer nor the world. -/
theorem closeTimes_eq (n : Nat) (t : TCPStreamLayer) (w : World) :
    closeTimes n t w = (List.replicate n none, t, w) := by
  induction n with
  | zero => rfl
  | succ k ih => simp [closeTimes, TCPStreamLayer.Close, ih, List.replicate_succ]

/-! ## The claims -/

/-- C1: whenever the constructor returns with a non-nil advertise address `A`,
its result is the transport that the creator makes from a stream layer `s`
(the one the constructor builds, as seen with the identity creator), the error
is nil, and `s.Addr()` returns exactly `A` in every world, that is whatever
the listener's bound address is; `bindAddr` is arbitrary.  The address `A` need
not even be non-wildcard. -/
theorem C1_Addr_returns_advertise {NT : Type} (bindAddr : String) (A : NetAddr)
    (maxPool timeout : Int) (creator : TCPStreamLayer → NT) (listener : Listener)
    (r : NT × Option Error)
    (h : newTCPTransport bindAddr (some A) maxPool timeout creator listener = .returned r) :
    ∃ s : TCPStreamLayer,
      r = (creator s, none) ∧
      newTCPTransport bindAddr (some A) maxPool timeout (fun x => x) listener
        = .returned (s, none) ∧
      ∀ w : World, s.Addr w = .returned (some A) := by
  obtain ⟨p, hl, hr⟩ := newTCPTransport_returned h
  subst hl
  exact ⟨⟨some A, p⟩, hr, rfl, fun w => Addr_advertise A p w⟩

/-- Witness of C1 at advertise `10.0.0.5:9000`, bind `127.0.0.1:0` and the
listener at address 0. -/
theorem C1_Addr_returns_advertise_witness :
    ∃ s : TCPStreamLayer,
      ((⟨some addr10, some 0⟩, none) : TCPStreamLayer × Option Error) = (s, none) ∧
      newTCPTransport "127.0.0.1:0" (some addr10) 3 10 (fun x => x) (some (.tcp (some 0)))
        = .returned (s, none) ∧
      ∀ w : World, s.Addr w = .returned (some addr10) :=
  C1_Addr_returns_advertise "127.0.0.1:0" addr10 3 10 (fun x => x) (some (.tcp (some 0)))
    (⟨some addr10, some 0⟩, none) rfl

/-- C2: whenever the constructor returns with the advertise address omitted,
the stream layer `s` it hands to the creator holds the injected listener, and
in every world `s.Addr()` is exactly what that listener's `Addr()` gives; for a
listener with a descriptor this is its bound local address. -/
theorem C2_Addr_is_listener_address {NT : Type} (bindAddr : String)
    (maxPool timeout : Int) (creator : TCPStreamLayer → NT) (listener : Listener)
    (r : NT × Option Error)
    (h : newTCPTransport bindAddr none maxPool timeout creator listener = .returned r) :
    ∃ s : TCPStreamLayer,
      r = (creator s, none) ∧
      newTCPTransport bindAddr none maxPool timeout (fun x => x) listener
        = .returned (s, none) ∧
      listener = some (.tcp s.listener) ∧
      (∀ w : World, s.Addr w = TCPListener.Addr s.listener w) ∧
      (∀ (w : World) (p : Nat) (fd : NetFD), s.listener = some p →
        (w.listeners p).fd = some fd → s.Addr w = .returned (some (.tcp fd.laddr))) := by
  obtain ⟨p, hl, hr⟩ := newTCPTransport_returned h
  subst hl
  refine ⟨⟨none, p⟩, hr, rfl, rfl, fun w => Addr_no_advertise p w, ?_⟩
  intro w q fd hp hfd
  simp only at hp
  subst hp
  simp [TCPStreamLayer.Addr, TCPListener.Addr, hfd]

/-- Witness of C2 at bind `127.0.0.1:0` and the listener at address 0. -/
theorem C2_Addr_is_listener_address_witness :
    ∃ s : TCPStreamLayer,
      ((⟨none, some 0⟩, none) : TCPStreamLayer × Option Error) = (s, none) ∧
      newTCPTransport "127.0.0.1:0" none 3 10 (fun x => x) (some (.tcp (some 0)))
        = .returned (s, none) ∧
      some (ListenerValue.tcp (some 0)) = some (.tcp s.listener) ∧
      (∀ w : World, s.Addr w = TCPListener.Addr s.listener w) ∧
      (∀ (w : World) (p : Nat) (fd : NetFD), s.listener = some p →
        (w.listeners p).fd = some fd → s.Addr w = .returned (some (.tcp fd.laddr))) :=
  C2_Addr_is_listener_address "127.0.0.1:0" 3 10 (fun x => x) (some (.tcp (some 0)))
    (⟨none, some 0⟩, none) rfl

/-- C3 fails on the code: with the wildcard advertise address `0.0.0.0:9000`
and a TCP listener the constructor returns the stream layer holding that
address and a nil error, not `errNotAdvertisable`, and `Addr()` of that stream
layer is the wildcard address itself. -/
theorem C3_wildcard_advertise_accepted :
    addrWildcard.isTCP = true ∧
    addrWildcard.isUnspecified = true ∧
    newTCPTransport "0.0.0.0:9000" (some addrWildcard) 3 10 (fun x => x)
        (some (.tcp (some 0)))
      = .returned (⟨some addrWildcard, some 0⟩, none) ∧
    newTCPTransport "0.0.0.0:9000" (some addrWildcard) 3 10 (fun x => some x)
        (some (.tcp (some 0)))
      ≠ .returned (none, some .errNotAdvertisable) ∧
    TCPStreamLayer.Addr ⟨some addrWildcard, some 0⟩ sampleWorld
      = .returned (some addrWildcard) := by
  decide

/-- C4 fails on the code: with an advertise address whose dynamic type is not
`*net.TCPAddr` and a TCP listener the constructor returns the stream layer
holding that address and a nil error, not `errNotTCP`, and `Addr()` of that
stream layer is the non-TCP address itself. -/
theorem C4_non_tcp_advertise_accepted :
    addrUnix.isTCP = false ∧
    newTCPTransport "127.0.0.1:0" (some addrUnix) 3 10 (fun x => x)
        (some (.tcp (some 0)))
      = .returned (⟨some addrUnix, some 0⟩, none) ∧
    newTCPTransport "127.0.0.1:0" (some addrUnix) 3 10 (fun x => some x)
        (some (.tcp (some 0)))
      ≠ .returned (none, some .errNotTCP) ∧
    TCPStreamLayer.Addr ⟨some addrUnix, some 0⟩ sampleWorld
      = .returned (some addrUnix) := by
  decide

/-- C5 fails on the code: with the advertise address omitted and the listener
at address 1 of `sampleWorld`, which is bound to `0.0.0.0:9000`, construction
is not rejected, and `Addr()` of the stream layer it builds is that
unspecified address. -/
theorem C5_unspecified_address_surfaced :
    newTCPTransport "0.0.0.0:9000" none 3 10 (fun x => x) (some (.tcp (some 1)))
      = .returned (⟨none, some 1⟩, none) ∧
    TCPStreamLayer.Addr ⟨none, some 1⟩ sampleWorld = .returned (some addrBoundWildcard) ∧
    addrBoundWildcard.isTCP = true ∧
    addrBoundWildcard.isUnspecified = true := by
  decide

/-- C6: `Close()` returns a nil error on the first call and on each of any
number `n` of later calls, and the stream layer and the world (hence the state
of the injected listener) after these calls are the ones before: an open
listener is still open, and `Accept()` after the calls does what it does
before them. -/
theorem C6_Close_is_no_op (t : TCPStreamLayer) (w : World) (n : Nat) :
    t.Close w = (none, t, w) ∧
    closeTimes n t w = (List.replicate n none, t, w) ∧
    (closeTimes n t w).2.1.Accept (closeTimes n t w).2.2 = t.Accept w ∧
    (∀ (p : Nat) (fd : NetFD), (w.listeners p).fd = some fd → fd.closed = false →
      ∃ fd2 : NetFD, (((closeTimes n t w).2.2).listeners p).fd = some fd2 ∧
        fd2.closed = false) := by
  have hc := closeTimes_eq n t w
  refine ⟨rfl, hc, ?_, ?_⟩
  · rw [hc]
  · intro p fd hfd hopen
    rw [hc]
    exact ⟨fd, hfd, hopen⟩

/-- C7: `Accept()` of a stream layer is exactly the result (connection, error
and effect on the world) of `Accept()` of the listener it holds, in every
world; when that listener is closed, `Accept()` returns no connection and the
error wrapping `net.ErrClosed`, and it neither blocks nor changes the world;
and an open listener is in that state once its owner has called its
`Close()`. -/
theorem C7_Accept_delegates (t : TCPStreamLayer) (w : World) :
    t.Accept w = TCPListener.Accept t.listener w ∧
    (∀ (p : Nat) (fd : NetFD), t.listener = some p → (w.listeners p).fd = some fd →
      fd.closed = true →
      t.Accept w
        = (.returned (none, some (.OpError "accept" "tcp" (some (.tcp fd.laddr)) .ErrClosed)),
           w)) ∧
    (∀ (p : Nat) (fd : NetFD), t.listener = some p → (w.listeners p).fd = some fd →
      fd.closed = false →
      (TCPListener.Close (some p) w).1 = .returned none ∧
      t.Accept (TCPListener.Close (some p) w).2
        = (.returned (none, some (.OpError "accept" "tcp" (some (.tcp fd.laddr)) .ErrClosed)),
           (TCPListener.Close (some p) w).2)) := by
  refine ⟨rfl, ?_, ?_⟩
  · intro p fd hp hfd hclosed
    simp [TCPStreamLayer.Accept, TCPListener.Accept, hp, hfd, hclosed]
  · intro p fd hp hfd hopen
    refine ⟨by simp [TCPListener.Close, hfd, hopen], ?_⟩
    simp [TCPStreamLayer.Accept, TCPListener.Accept, TCPListener.Close, hp, hfd, hopen,
      World.set]

/-- Witness of C7: the listener at address 2 of `sampleWorld` has been closed,
and `Accept()` on it returns the closed error although a connection is
pending; the listener at address 0 is open and gives the same error once its
owner has closed it. -/
theorem C7_Accept_delegates_witness :
    TCPStreamLayer.Accept ⟨none, some 2⟩ sampleWorld
      = (.returned (none, some (.OpError "accept" "tcp"
            (some (.tcp ⟨[127, 0, 0, 1], 40123, ""⟩)) .ErrClosed)), sampleWorld) ∧
    TCPStreamLayer.Accept ⟨none, some 0⟩ (TCPListener.Close (some 0) sampleWorld).2
      = (.returned (none, some (.OpError "accept" "tcp"
            (some (.tcp ⟨[127, 0, 0, 1], 40123, ""⟩)) .ErrClosed)),
         (TCPListener.Close (some 0) sampleWorld).2) :=
  ⟨(C7_Accept_delegates ⟨none, some 2⟩ sampleWorld).2.1 2
      ⟨⟨[127, 0, 0, 1], 40123, ""⟩, true, [⟨7⟩]⟩ rfl rfl rfl,
   ((C7_Accept_delegates ⟨none, some 0⟩ sampleWorld).2.2 0
      ⟨⟨[127, 0, 0, 1], 40123, ""⟩, false, [⟨7⟩]⟩ rfl rfl rfl).2⟩

/-- C8 fails on the code: with a nil listener, and with a listener whose
dynamic type is not `*net.TCPListener`, the constructor panics in the type
assertion instead of returning a transport or an error. -/
theorem C8_constructor_panics :
    newTCPTransport "127.0.0.1:0" (some addr10) 3 10 (fun x => some x) none
      = .panicked (.interfaceConversion none) ∧
    newTCPTransport "127.0.0.1:0" (some addr10) 3 10 (fun x => some x)
        (some (.other "*net.UnixListener"))
      = .panicked (.interfaceConversion (some "*net.UnixListener")) := by
  decide

/-- C9: for the same arguments, `NewTCPTransport` and
`NewTCPTransportWithLogger` are both the outcome `built` of the constructor
run with the identity creator, mapped through their own transport creator: they
return in the same cases, panic in the same cases with the same panic, and
whenever they return the creators were handed the same stream layer, which
holds the advertise address and the injected listener, and the error is nil. -/
theorem C9_constructors_agree {NT W : Type}
    (NewNetworkTransport : TCPStreamLayer → Int → Int → W → NT)
    (NewNetworkTransportWithLogger : TCPStreamLayer → Int → Int → NT)
    (bindAddr : String) (advertise : Addr) (maxPool timeout : Int) (logOutput : W)
    (listener : Listener) :
    let built := newTCPTransport bindAddr advertise maxPool timeout (fun x => x) listener
    NewTCPTransport NewNetworkTransport bindAddr advertise maxPool timeout logOutput listener
      = built.map (fun r => (NewNetworkTransport r.1 maxPool timeout logOutput, r.2)) ∧
    NewTCPTransportWithLogger NewNetworkTransportWithLogger bindAddr advertise maxPool timeout
        listener
      = built.map (fun r => (NewNetworkTransportWithLogger r.1 maxPool timeout, r.2)) ∧
    (∀ (s : TCPStreamLayer) (e : Option Error), built = .returned (s, e) →
      s.advertise = advertise ∧ listener = some (.tcp s.listener) ∧ e = none) ∧
    ((∃ r, NewTCPTransport NewNetworkTransport bindAddr advertise maxPool timeout logOutput
          listener = .returned r) ↔
      (∃ r, NewTCPTransportWithLogger NewNetworkTransportWithLogger bindAddr advertise maxPool
          timeout listener = .returned r)) := by
  intro built
  refine ⟨?_, ?_, ?_, ?_⟩
  · rcases listener with _ | ⟨p⟩ | name <;> rfl
  · rcases listener with _ | ⟨p⟩ | name <;> rfl
  · intro s e h
    obtain ⟨p, hl, hr⟩ := newTCPTransport_returned h
    simp only [Prod.mk.injEq] at hr
    obtain ⟨hs, he⟩ := hr
    subst hs
    exact ⟨rfl, hl, he⟩
  · rcases listener with _ | ⟨p⟩ | name
    · simp [NewTCPTransport, NewTCPTransportWithLogger, newTCPTransport, assertTCPListener,
        Outcome.bind]
    · simp [NewTCPTransport, NewTCPTransportWithLogger, newTCPTransport, assertTCPListener,
        Outcome.bind]
    · simp [NewTCPTransport, NewTCPTransportWithLogger, newTCPTransport, assertTCPListener,
        Outcome.bind]

end Raft

namespace Util

/-! ## Helper lemmas on `bytes.go` -/

/-- A list of length 8 is a list of 8 elements. -/
theorem length_eq_eight {b : List Nat} (hb : b.length = 8) :
    ∃ x0 x1 x2 x3 x4 x5 x6 x7, b = [x0, x1, x2, x3, x4, x5, x6, x7] := by
  match b, hb with
  | [x0, x1, x2, x3, x4, x5, x6, x7], _ => exact ⟨x0, x1, x2, x3, x4, x5, x6, x7, rfl⟩

/-- On a buffer of length 8 `Uint64toBytes` does not panic and leaves the
big-endian encoding of `v`, whatever the buffer held. -/
theorem Uint64toBytes_eq (b : List Nat) (v : Nat) (hb : b.length = 8) :
    Uint64toBytes b v = some (specBigEndian v) := by
  obtain ⟨x0, x1, x2, x3, x4, x5, x6, x7, rfl⟩ := length_eq_eight hb
  simp [Uint64toBytes, specBigEndian, List.range, List.range.loop, List.foldlM,
    Nat.shiftRight_eq_div_pow]

/-- The function `BytesToUint64` reads the big-endian encoding of a 64-bit
value back. -/
theorem BytesToUint64_specBigEndian (v : Nat) (hv : v < 2 ^ 64) :
    BytesToUint64 (specBigEndian v) = some v := by
  simp only [BytesToUint64, specBigEndian, uint64Mod, List.range, List.range.loop,
    List.foldl, List.length, List.getD]
  simp
  omega


/-- An index found by `indexOpt` is the first occurrence of the separator. -/
theorem indexOpt_some {sep : List Nat} : ∀ {s : List Nat} {i : Nat},
    indexOpt sep s = some i → firstOccurrenceAt sep s i := by
  intro s
  induction s with
  | nil =>
    intro i h
    by_cases hs : sep = []
    · simp [indexOpt, hs] at h
      subst h
      exact ⟨⟨le_refl _, by simp [hs]⟩, fun j hj => absurd hj (Nat.not_lt_zero j)⟩
    · simp [indexOpt, hs] at h
  | cons x t ih =>
    intro i h
    by_cases hp : sep.isPrefixOf (x :: t) = true
    · simp [indexOpt, hp] at h
      subst h
      exact ⟨⟨Nat.zero_le _, by simpa using hp⟩, fun j hj => absurd hj (Nat.not_lt_zero j)⟩
    · simp only [indexOpt, hp] at h
      simp only [Bool.false_eq_true, if_false, Option.map_eq_some'] at h
      obtain ⟨k, hk, rfl⟩ := h
      obtain ⟨⟨hle, hocc⟩, hfirst⟩ := ih hk
      refine ⟨⟨by simpa using hle, by simpa using hocc⟩, ?_⟩
      intro j hj hoc
      cases j with
      | zero => exact hp (by simpa [occursAt] using hoc.2)
      | succ j =>
        exact hfirst j (by omega) ⟨by simpa using hoc.1, by simpa using hoc.2⟩

/-- When `indexOpt` finds nothing the separator occurs nowhere. -/
theorem indexOpt_none {sep : List Nat} : ∀ {s : List Nat},
    indexOpt sep s = none → ∀ j, ¬ occursAt sep s j := by
  intro s
  induction s with
  | nil =>
    intro h j hoc
    by_cases hs : sep = []
    · simp [indexOpt, hs] at h
    · obtain ⟨_, h2⟩ := hoc
      simp at h2
      exact hs h2
  | cons x t ih =>
    intro h j hoc
    by_cases hp : sep.isPrefixOf (x :: t) = true
    · simp [indexOpt, hp] at h
    · simp only [indexOpt, hp] at h
      simp only [Bool.false_eq_true, if_false, Option.map_eq_none'] at h
      cases j with
      | zero => exact hp (by simpa [occursAt] using hoc.2)
      | succ j => exact ih h j ⟨by simpa using hoc.1, by simpa using hoc.2⟩

/-- The index `indexOpt` finds is the first occurrence, when there is one. -/
theorem indexOpt_of_first {sep s : List Nat} {i : Nat} (h : firstOccurrenceAt sep s i) :
    indexOpt sep s = some i := by
  cases hk : indexOpt sep s with
  | none => exact absurd h.1 (indexOpt_none hk i)
  | some k =>
    have hk2 := indexOpt_some hk
    rcases Nat.lt_trichotomy k i with hlt | heq | hgt
    · exact absurd hk2.1 (h.2 k hlt)
    · rw [heq]
    · exact absurd h.1 (hk2.2 i hgt)

/-- An occurrence of the separator lies within the data. -/
theorem occursAt_length_le {sep s : List Nat} {i : Nat} (h : occursAt sep s i) :
    i + sep.length ≤ s.length := by
  obtain ⟨hle, hp⟩ := h
  have := ( List.isPrefixOf_iff_prefix.mp hp).length_le
  simp at this
  omega

/-- A non-empty separator does not occur in the bytes before its first
occurrence. -/
theorem no_occurrence_before_first {sep s : List Nat} {i : Nat}
    (h : firstOccurrenceAt sep s i) (hsep : sep ≠ []) : ∀ j, ¬ occursAt sep (s.take i) j := by
  intro j hoc
  obtain ⟨hle, hp⟩ := hoc
  have hpre := List.isPrefixOf_iff_prefix.mp hp
  have hlen := hpre.length_le
  have hpos : 0 < sep.length := List.length_pos.mpr hsep
  simp at hlen hle
  have hji : j < i := by omega
  apply h.2 j hji
  refine ⟨by have := h.1.1; omega, List.isPrefixOf_iff_prefix.mpr ?_⟩
  have h2 : (List.take i s).drop j <+: s.drop j := by
    rw [List.drop_take]
    exact List.take_prefix _ _
  exact hpre.trans h2


/-- The call `ByteSize(0)` gives `"0"`. -/
theorem ByteSize_zero : ByteSize 0 = "0" := by decide

/-- A letter that stands for a power of 1024 is one of ten letters. -/
theorem specLetterPower_some {c : Char} {k : Nat} (h : specLetterPower c = some k) :
    (c = 'B' ∧ k = 0) ∨ (c = 'b' ∧ k = 0) ∨ (c = 'K' ∧ k = 1) ∨ (c = 'k' ∧ k = 1) ∨
    (c = 'M' ∧ k = 2) ∨ (c = 'm' ∧ k = 2) ∨ (c = 'G' ∧ k = 3) ∨ (c = 'g' ∧ k = 3) ∨
    (c = 'T' ∧ k = 4) ∨ (c = 't' ∧ k = 4) := by
  unfold specLetterPower at h
  split_ifs at h with h1 h2 h3 h4 h5
  · have hk : k = 0 := by simpa using h.symm
    rcases h1 with h1 | h1
    · exact Or.inl ⟨h1, hk⟩
    · exact Or.inr (Or.inl ⟨h1, hk⟩)
  · have hk : k = 1 := by simpa using h.symm
    rcases h2 with h2 | h2
    · exact Or.inr (Or.inr (Or.inl ⟨h2, hk⟩))
    · exact Or.inr (Or.inr (Or.inr (Or.inl ⟨h2, hk⟩)))
  · have hk : k = 2 := by simpa using h.symm
    rcases h3 with h3 | h3
    · exact Or.inr (Or.inr (Or.inr (Or.inr (Or.inl ⟨h3, hk⟩))))
    · exact Or.inr (Or.inr (Or.inr (Or.inr (Or.inr (Or.inl ⟨h3, hk⟩)))))
  · have hk : k = 3 := by simpa using h.symm
    rcases h4 with h4 | h4
    · exact Or.inr (Or.inr (Or.inr (Or.inr (Or.inr (Or.inr (Or.inl ⟨h4, hk⟩))))))
    · exact Or.inr (Or.inr (Or.inr (Or.inr (Or.inr (Or.inr (Or.inr (Or.inl ⟨h4, hk⟩)))))))
  · have hk : k = 4 := by simpa using h.symm
    rcases h5 with h5 | h5
    · exact Or.inr (Or.inr (Or.inr (Or.inr (Or.inr (Or.inr (Or.inr (Or.inr (Or.inl ⟨h5, hk⟩))))))))
    · exact Or.inr (Or.inr (Or.inr (Or.inr (Or.inr (Or.inr (Or.inr (Or.inr (Or.inr ⟨h5, hk⟩))))))))

/-- A unit of measurement is a letter alone or a letter other than B followed
by B or b. -/
theorem specUnitPower_some {u : List Char} {k : Nat} (h : specUnitPower u = some k) :
    ∃ c, specLetterPower c = some k ∧ (u = [c] ∨ (u = [c, 'B'] ∧ c ≠ 'B' ∧ c ≠ 'b') ∨
      (u = [c, 'b'] ∧ c ≠ 'B' ∧ c ≠ 'b')) := by
  match u, h with
  | [c], h => exact ⟨c, h, Or.inl rfl⟩
  | [c, b], h =>
    simp only [specUnitPower] at h
    split_ifs at h with hb
    obtain ⟨hb1, hb2⟩ := hb
    push_neg at hb2
    rcases hb1 with rfl | rfl
    · exact ⟨c, h, Or.inr (Or.inl ⟨rfl, hb2⟩)⟩
    · exact ⟨c, h, Or.inr (Or.inr ⟨rfl, hb2⟩)⟩


/-- The leading digits of digits followed by a character that is no digit. -/
theorem takeWhile_digits_append (digits : List Char) (c : Char) (tl : List Char)
    (hdig : ∀ d ∈ digits, isDigit d = true) (hc : isDigit c = false) :
    (digits ++ c :: tl).takeWhile isDigit = digits ∧
    (digits ++ c :: tl).dropWhile isDigit = c :: tl := by
  induction digits with
  | nil => simp [List.takeWhile, List.dropWhile, hc]
  | cons d ds ih =>
    have hd : isDigit d = true := hdig d (List.mem_cons_self _ _)
    have ih2 := ih (fun x hx => hdig x (List.mem_cons_of_mem _ hx))
    simp [List.takeWhile, List.dropWhile, hd, ih2.1, ih2.2]

/-- The pattern matches digits followed by a unit, with these two groups. -/
theorem submatch_of_digits_unit (digits : List Char) (c : Char) (tl : List Char)
    (hne : digits ≠ []) (hdig : ∀ d ∈ digits, isDigit d = true) (hc : isDigit c = false)
    (hu : isUnit (c :: tl) = true) :
    bytesPatternSubmatch (digits ++ c :: tl) = some (digits, c :: tl) := by
  obtain ⟨d, ds, rfl⟩ := List.exists_cons_of_ne_nil hne
  have hd : isDigit d = true := hdig d (List.mem_cons_self _ _)
  have hminus : d ≠ '-' := by
    intro h
    rw [h] at hd
    exact absurd hd (by decide)
  have htd := takeWhile_digits_append (d :: ds) c tl hdig hc
  have hsign : (if (d :: ds ++ c :: tl).head? = some '-' then ['-'] else ([] : List Char)) = [] := by
    simp [hminus]
  unfold bytesPatternSubmatch
  simp only [hsign, List.length_nil, List.drop_zero, htd.1, htd.2, hu]
  simp

/-- The function `ParseUint` gives the value of a string of digits below 2^64. -/
theorem ParseUint_digits (digits : List Char) (hne : digits ≠ [])
    (hdig : ∀ d ∈ digits, isDigit d = true) (h64 : decimalValue digits < 2 ^ 64) :
    ParseUint digits = some (decimalValue digits) := by
  have hall : digits.all isDigit = true := by simpa [List.all_eq_true] using hdig
  have h64b : decimalValue digits < 18446744073709551616 := by
    have hpow : (2 : Nat) ^ 64 = 18446744073709551616 := by norm_num
    omega
  simp [ParseUint, hne, hall, uint64Mod, h64b]


/-- What the code computes on each unit letter: it is no digit, the pattern
accepts it, and the switch on the first byte of its upper case selects the
power of 1024 it stands for. -/
theorem letter_facts {c : Char} {k : Nat} (h : specLetterPower c = some k) :
    isDigit c = false ∧ (isKMGT c || isB c) = true ∧
    (c ≠ 'B' → c ≠ 'b' → isKMGT c = true) ∧
    ((leadByte (toUpperChar c) = 66 ∧ k = 0) ∨ (leadByte (toUpperChar c) = 75 ∧ k = 1) ∨
     (leadByte (toUpperChar c) = 77 ∧ k = 2) ∨ (leadByte (toUpperChar c) = 71 ∧ k = 3) ∨
     (leadByte (toUpperChar c) = 84 ∧ k = 4)) := by
  rcases specLetterPower_some h with
    ⟨rfl, rfl⟩ | ⟨rfl, rfl⟩ | ⟨rfl, rfl⟩ | ⟨rfl, rfl⟩ | ⟨rfl, rfl⟩ | ⟨rfl, rfl⟩ |
    ⟨rfl, rfl⟩ | ⟨rfl, rfl⟩ | ⟨rfl, rfl⟩ | ⟨rfl, rfl⟩ <;> decide

/-- On a positive decimal integer `n` followed by a unit standing for `1024 ^ k`,
surrounded by white space, `ToBytes` returns `n * 1024 ^ k` modulo 2^64 and a
nil error: the product is exact when it is below 2^64 and wrapped around
otherwise. -/
theorem ToBytes_of_specQuantity (s : String) (n k : Nat)
    (h : specQuantity (TrimSpace s.data) n k) :
    ToBytes s = (n * 1024 ^ k % 2 ^ 64, none) := by
  obtain ⟨digits, unit, ht, hne, hdig, hval, h1, h64, hu⟩ := h
  obtain ⟨c, hc, hform⟩ := specUnitPower_some hu
  obtain ⟨hnd, hkb, hkmgt, hlead⟩ := letter_facts hc
  have hunit : ∃ tl, unit = c :: tl ∧ isUnit (c :: tl) = true := by
    rcases hform with rfl | ⟨rfl, h1, h2⟩ | ⟨rfl, h1, h2⟩
    · exact ⟨[], rfl, by simpa [isUnit] using hkb⟩
    · exact ⟨['B'], rfl, by simp [isUnit, hkmgt h1 h2, isB]⟩
    · exact ⟨['b'], rfl, by simp [isUnit, hkmgt h1 h2, isB]⟩
  obtain ⟨tl, rfl, hisU⟩ := hunit
  have hsub := submatch_of_digits_unit digits c tl hne hdig hnd hisU
  have hparse := ParseUint_digits digits hne hdig (by rw [hval]; exact h64)
  rw [hval] at hparse
  have hn1 : ¬ n < 1 := by omega
  unfold ToBytes
  rw [ht, hsub]
  simp only [hparse, hn1, if_false, List.map_cons, List.head?_cons, Option.map_some',
    Option.getD_some]
  rcases hlead with ⟨hl, rfl⟩ | ⟨hl, rfl⟩ | ⟨hl, rfl⟩ | ⟨hl, rfl⟩ | ⟨hl, rfl⟩ <;>
    simp [hl, TERABYTE, GIGABYTE, MEGABYTE, KILOBYTE, BYTE, uint64Mod]


/-- A character of the trimmed string is a character of the string. -/
theorem mem_of_mem_TrimSpace {c : Char} {s : List Char} (h : c ∈ TrimSpace s) : c ∈ s := by
  unfold TrimSpace at h
  rw [List.mem_reverse] at h
  have h2 := (List.dropWhile_suffix isSpace).subset h
  rw [List.mem_reverse] at h2
  exact (List.dropWhile_suffix isSpace).subset h2

/-- A character of the class `[KMGT]` under `(?i)` other than the Kelvin sign
is one of the eight letters. -/
theorem isKMGT_cases {c : Char} (h : isKMGT c = true) (hk : c ≠ Char.ofNat 0x212A) :
    ∃ k, specLetterPower c = some k ∧ c ≠ 'B' ∧ c ≠ 'b' := by
  have hne : c.toNat ≠ 0x212A := by
    intro hc
    apply hk
    rw [← Char.ofNat_toNat c, hc]
  simp only [isKMGT, Bool.or_eq_true, decide_eq_true_eq] at h
  rcases h with (((((((rfl | rfl) | rfl) | rfl) | rfl) | rfl) | rfl) | rfl) | h
  · exact ⟨1, by decide⟩
  · exact ⟨2, by decide⟩
  · exact ⟨3, by decide⟩
  · exact ⟨4, by decide⟩
  · exact ⟨1, by decide⟩
  · exact ⟨2, by decide⟩
  · exact ⟨3, by decide⟩
  · exact ⟨4, by decide⟩
  · exact absurd h hne

/-- A character matching `B` under `(?i)` is B or b. -/
theorem isB_cases {c : Char} (h : isB c = true) : c = 'B' ∨ c = 'b' := by
  simpa [isB] using h

/-- A string matching the unit group without the Kelvin sign is a unit of
measurement. -/
theorem specUnitPower_of_isUnit {u : List Char} (h : isUnit u = true)
    (hk : Char.ofNat 0x212A ∉ u) : ∃ k, specUnitPower u = some k := by
  match u, h with
  | [c], h =>
    simp only [isUnit, Bool.or_eq_true] at h
    rcases h with h | h
    · obtain ⟨k, hk1, _, _⟩ := isKMGT_cases h (fun hc => hk (by simp [hc]))
      exact ⟨k, hk1⟩
    · rcases isB_cases h with rfl | rfl
      · exact ⟨0, by decide⟩
      · exact ⟨0, by decide⟩
  | [c, b], h =>
    simp only [isUnit, Bool.and_eq_true] at h
    obtain ⟨k, hk1, h1, h2⟩ := isKMGT_cases h.1 (fun hc => hk (by simp [hc]))
    refine ⟨k, ?_⟩
    have hb := isB_cases h.2
    simp [specUnitPower, hb, h1, h2, hk1]

/-- When the pattern matches and group 1 is made of digits, the string is
group 1 followed by group 2, a unit. -/
theorem submatch_some {t d u : List Char} (h : bytesPatternSubmatch t = some (d, u))
    (hd : d.all isDigit = true) :
    t = d ++ u ∧ d ≠ [] ∧ isUnit u = true := by
  unfold bytesPatternSubmatch at h
  by_cases hs : t.head? = some '-'
  · simp only [hs, if_true] at h
    split_ifs at h with hc
    simp only [Option.some.injEq, Prod.mk.injEq] at h
    obtain ⟨h1, _⟩ := h
    rw [← h1] at hd
    simp [isDigit] at hd
  · simp only [hs, if_false, List.length_nil, List.drop_zero, List.nil_append] at h
    split_ifs at h with hc
    simp only [Option.some.injEq, Prod.mk.injEq] at h
    obtain ⟨h1, h2⟩ := h
    subst h1 h2
    exact ⟨(List.takeWhile_append_dropWhile isDigit t).symm, hc.1, hc.2⟩

/-- When `ParseUint` succeeds the string is made of digits and its value is
below 2^64. -/
theorem ParseUint_some {d : List Char} {v : Nat} (h : ParseUint d = some v) :
    d.all isDigit = true ∧ v = decimalValue d ∧ v < 2 ^ 64 := by
  unfold ParseUint at h
  simp at h
  obtain ⟨⟨_, hall⟩, h2, rfl⟩ := h
  exact ⟨by simpa [List.all_eq_true] using hall, rfl, by simpa [uint64Mod] using h2⟩

/-- A string without the Kelvin sign that `ToBytes` accepts is, once trimmed, a
positive decimal integer followed by a unit of measurement. -/
theorem specQuantity_of_ToBytes (s : String) (hk : Char.ofNat 0x212A ∉ s.data)
    (h : (ToBytes s).2 = none) : ∃ n k, specQuantity (TrimSpace s.data) n k := by
  have hkt : Char.ofNat 0x212A ∉ TrimSpace s.data := fun hc => hk (mem_of_mem_TrimSpace hc)
  unfold ToBytes at h
  generalize TrimSpace s.data = t at hkt h
  cases hsub : bytesPatternSubmatch t with
  | none => simp [hsub] at h
  | some p =>
    obtain ⟨d, u⟩ := p
    cases hp : ParseUint d with
    | none => simp [hsub, hp] at h
    | some v =>
      obtain ⟨hall, hv, h64⟩ := ParseUint_some hp
      obtain ⟨ht, hne, hu⟩ := submatch_some hsub hall
      have hv1 : 1 ≤ v := by
        by_contra hlt
        have : v < 1 := by omega
        simp [hsub, hp, this] at h
      have hku : Char.ofNat 0x212A ∉ u := fun hc => hkt (by rw [ht]; exact List.mem_append_right _ hc)
      obtain ⟨k, hk2⟩ := specUnitPower_of_isUnit hu hku
      exact ⟨v, k, d, u, ht, hne, by simpa [List.all_eq_true] using hall, hv.symm, hv1, h64, hk2⟩

/-- The function `ToBytes` returns a nil error, or 0 and
`errInvalidByteQuantity`. -/
theorem ToBytes_error_or_ok (s : String) :
    (ToBytes s).2 = none ∨ ToBytes s = (0, some .errInvalidByteQuantity) := by
  unfold ToBytes
  split
  · exact Or.inr rfl
  · split
    · exact Or.inr rfl
    · split_ifs
      · exact Or.inr rfl
      · exact Or.inl rfl

/-! ## The claims on `bytes.go` -/

/-- C11 fails on the code: `ByteSize(1536)` is `"1.5K"` and `ByteSize(0)` is
`"0"`, and `ToBytes` returns `errInvalidByteQuantity` on both. -/
theorem C11_ToBytes_rejects_ByteSize_output :
    ByteSize 1536 = "1.5K" ∧
    ToBytes (ByteSize 1536) = (0, some .errInvalidByteQuantity) ∧
    ByteSize 0 = "0" ∧
    ToBytes (ByteSize 0) = (0, some .errInvalidByteQuantity) := by
  decide

/-- C12 fails on the code: the string made of `1` and the Kelvin sign U+212A,
which is none of the letters K, M, G, T, B in either case, is accepted by
`ToBytes`, which returns 0 and a nil error. -/
theorem C12_ToBytes_accepts_kelvin_sign :
    kelvinQuantity.data = ['1', Char.ofNat 0x212A] ∧
    Char.ofNat 0x212A ∉ ['K', 'M', 'G', 'T', 'B', 'k', 'm', 'g', 't', 'b'] ∧
    ToBytes kelvinQuantity = (0, none) := by
  decide

/-- C13 fails on the code: `ToBytes("16777216T")` returns 0 and a nil error,
the product 16777216 * 1024^4 = 2^64 having wrapped around; and
`ToBytes("16777217T")` returns 1024^4. -/
theorem C13_ToBytes_wraps_around :
    ToBytes "16777216T" = (0, none) ∧
    16777216 * 1024 ^ 4 = 2 ^ 64 ∧
    ToBytes "16777217T" = (1024 ^ 4, none) := by
  decide

/-- C14: for every `uint64` `n ≥ 1`, `ByteSize(n)` ends with the letter of the
largest unit among B = 1, K = 1024, M = 1024^2, G = 1024^3, T = 1024^4 that
does not exceed `n`; and `ByteSize(0)` is `"0"`. -/
theorem C14_ByteSize_unit (n : Nat) (h1 : 1 ≤ n) (h64 : n < 2 ^ 64) :
    (∃ (u : Nat) (letter : Char) (num : List Char),
      (u, letter) ∈ specUnits ∧ u ≤ n ∧ (∀ p ∈ specUnits, p.1 ≤ n → p.1 ≤ u) ∧
      (ByteSize n).data = num ++ [letter]) ∧
    ByteSize 0 = "0" := by
  refine ⟨?_, ByteSize_zero⟩
  have hconst : TERABYTE = 1024 ^ 4 ∧ GIGABYTE = 1024 ^ 3 ∧ MEGABYTE = 1024 ^ 2 ∧
      KILOBYTE = 1024 ∧ BYTE = 1 := by decide
  obtain ⟨hTc, hGc, hMc, hKc, hBc⟩ := hconst
  by_cases hT : n ≥ TERABYTE
  · refine ⟨1024 ^ 4, 'T', TrimSuffix (sprintf1f (float32OfUint64 n) TERABYTE) ['.', '0'],
      by simp [specUnits], by omega, ?_, by simp [ByteSize, hT]⟩
    intro p hp hle
    simp [specUnits] at hp
    rcases hp with rfl | rfl | rfl | rfl | rfl <;> simp
  by_cases hG : n ≥ GIGABYTE
  · refine ⟨1024 ^ 3, 'G', TrimSuffix (sprintf1f (float32OfUint64 n) GIGABYTE) ['.', '0'],
      by simp [specUnits], by omega, ?_, by simp [ByteSize, hT, hG]⟩
    intro p hp hle
    simp [specUnits] at hp
    rcases hp with rfl | rfl | rfl | rfl | rfl <;> simp at hle ⊢
    omega
  by_cases hM : n ≥ MEGABYTE
  · refine ⟨1024 ^ 2, 'M', TrimSuffix (sprintf1f (float32OfUint64 n) MEGABYTE) ['.', '0'],
      by simp [specUnits], by omega, ?_, by simp [ByteSize, hT, hG, hM]⟩
    intro p hp hle
    simp [specUnits] at hp
    rcases hp with rfl | rfl | rfl | rfl | rfl <;> simp at hle ⊢ <;> omega
  by_cases hK : n ≥ KILOBYTE
  · refine ⟨1024, 'K', TrimSuffix (sprintf1f (float32OfUint64 n) KILOBYTE) ['.', '0'],
      by simp [specUnits], by omega, ?_, by simp [ByteSize, hT, hG, hM, hK]⟩
    intro p hp hle
    simp [specUnits] at hp
    rcases hp with rfl | rfl | rfl | rfl | rfl <;> simp at hle ⊢ <;> omega
  · have hB : n ≥ BYTE := by omega
    refine ⟨1, 'B', TrimSuffix (sprintf1f (float32OfUint64 n) 1) ['.', '0'],
      by simp [specUnits], by omega, ?_, by simp [ByteSize, hT, hG, hM, hK, hB]⟩
    intro p hp hle
    simp [specUnits] at hp
    rcases hp with rfl | rfl | rfl | rfl | rfl <;> simp at hle ⊢ <;> omega

/-- Witness of C14 at `n = 1536`. -/
theorem C14_ByteSize_unit_witness :
    (∃ (u : Nat) (letter : Char) (num : List Char),
      (u, letter) ∈ specUnits ∧ u ≤ 1536 ∧ (∀ p ∈ specUnits, p.1 ≤ 1536 → p.1 ≤ u) ∧
      (ByteSize 1536).data = num ++ [letter]) ∧
    ByteSize 0 = "0" :=
  C14_ByteSize_unit 1536 (by decide) (by decide)

/-- C15: for every 64-bit value `v` and every buffer `b` of length 8,
`Uint64toBytes(b, v)` does not panic and leaves in the buffer the big-endian
encoding of `v`, and `BytesToUint64` of that buffer is `v`. -/
theorem C15_uint64_round_trip (b : List Nat) (v : Nat) (hb : b.length = 8)
    (hv : v < 2 ^ 64) :
    ∃ b2 : List Nat,
      Uint64toBytes b v = some b2 ∧ b2 = specBigEndian v ∧ b2.length = 8 ∧
      BytesToUint64 b2 = some v :=
  ⟨specBigEndian v, Uint64toBytes_eq b v hb, rfl, rfl, BytesToUint64_specBigEndian v hv⟩

/-- Witness of C15 at `v = 0x0102030405060708` and a buffer of eight 255s. -/
theorem C15_uint64_round_trip_witness :
    ∃ b2 : List Nat,
      Uint64toBytes [255, 255, 255, 255, 255, 255, 255, 255] 0x0102030405060708 = some b2 ∧
      b2 = specBigEndian 0x0102030405060708 ∧ b2.length = 8 ∧
      BytesToUint64 b2 = some 0x0102030405060708 :=
  C15_uint64_round_trip [255, 255, 255, 255, 255, 255, 255, 255] 0x0102030405060708 rfl
    (by decide)

/-- C16, as stated, fails: with the empty separator and data `[1]`, not at
EOF, the first occurrence is at index 0 and the split function returns
advance 0 and the empty token, in which the empty separator does occur. -/
theorem C16_empty_separator_in_token :
    firstOccurrenceAt [] (sliceBytes (some [1])) 0 ∧
    GetSplitFunc [] (some [1]) false = (0, some [], none) ∧
    occursAt [] (sliceBytes (some [])) 0 :=
  ⟨indexOpt_some (by decide), by decide, ⟨Nat.le_refl _, rfl⟩⟩

/-- C16, amended: the split function returns `(0, nil, nil)` when `atEOF` is
true and `data` is empty; otherwise, when the first occurrence of the
separator in `data` is at index `i`, it returns advance `i + len(split)`, the
token `data[0:i]` (nil when `data` is nil, else the non-nil slice of the
first `i` bytes) and a nil error, and the token contains no separator when
the separator is not empty; otherwise, when `atEOF` is true, it returns
`(len(data), data, nil)`; otherwise it returns `(0, nil, nil)`.  In every case
`0 ≤ advance ≤ len(data)`. -/
theorem C16_split_function (split : List Nat) (data : Option (List Nat)) (atEOF : Bool) :
    (atEOF = true ∧ sliceBytes data = [] → GetSplitFunc split data atEOF = (0, none, none)) ∧
    (¬ (atEOF = true ∧ sliceBytes data = []) →
      ∀ i : Nat, firstOccurrenceAt split (sliceBytes data) i →
        GetSplitFunc split data atEOF
          = (((i + split.length : Nat) : Int), sliceTo data i, none) ∧
        (sliceTo data i = none ↔ data = none) ∧
        sliceBytes (sliceTo data i) = (sliceBytes data).take i ∧
        (split ≠ [] → ∀ j, ¬ occursAt split (sliceBytes (sliceTo data i)) j)) ∧
    (¬ (atEOF = true ∧ sliceBytes data = []) → (∀ j, ¬ occursAt split (sliceBytes data) j) →
      atEOF = true →
      GetSplitFunc split data atEOF = (((sliceBytes data).length : Int), data, none)) ∧
    (¬ (atEOF = true ∧ sliceBytes data = []) → (∀ j, ¬ occursAt split (sliceBytes data) j) →
      atEOF = false →
      GetSplitFunc split data atEOF = (0, none, none)) ∧
    (0 ≤ (GetSplitFunc split data atEOF).1 ∧
      (GetSplitFunc split data atEOF).1 ≤ ((sliceBytes data).length : Int)) := by
  have hnone : (∀ j, ¬ occursAt split (sliceBytes data) j) →
      indexOpt split (sliceBytes data) = none := by
    intro h
    cases hk : indexOpt split (sliceBytes data) with
    | none => rfl
    | some k => exact absurd (indexOpt_some hk).1 (h k)
  have hbytes : ∀ i, sliceBytes (sliceTo data i) = (sliceBytes data).take i := by
    intro i
    cases data <;> simp [sliceBytes, sliceTo]
  have hcondOf : ¬ (atEOF = true ∧ sliceBytes data = []) →
      ¬ (atEOF = true ∧ ((sliceBytes data).length : Int) = 0) := by
    intro hne ⟨h1, h2⟩
    exact hne ⟨h1, List.length_eq_zero.mp (by exact_mod_cast h2)⟩
  refine ⟨?_, ?_, ?_, ?_, ?_⟩
  · rintro ⟨h1, h2⟩
    simp [GetSplitFunc, h1, h2]
  · intro hne i hi
    have hidx := indexOpt_of_first hi
    have hcond := hcondOf hne
    refine ⟨?_, ?_, hbytes i, ?_⟩
    · simp only [GetSplitFunc, Index, hidx, hcond, if_false]
      simp
    · cases data <;> simp [sliceTo]
    · intro hsplit
      rw [hbytes i]
      exact no_occurrence_before_first hi hsplit
  · intro hne hno hE
    have hcond := hcondOf hne
    simp only [GetSplitFunc, Index, hnone hno, hcond, if_false]
    simp [hE]
  · intro hne hno hE
    simp only [GetSplitFunc, Index, hnone hno]
    simp [hE]
  · by_cases hc : atEOF = true ∧ ((sliceBytes data).length : Int) = 0
    · simp [GetSplitFunc, hc]
    · cases hk : indexOpt split (sliceBytes data) with
      | none =>
        cases atEOF
        · simp [GetSplitFunc, Index, hk]
        · simp only [GetSplitFunc, Index, hk]
          simp
          split_ifs <;> simp
      | some k =>
        have hlen := occursAt_length_le (indexOpt_some hk).1
        simp only [GetSplitFunc, Index, hk, hc, if_false]
        have hk0 : (0 : Int) ≤ (k : Int) := Int.ofNat_nonneg k
        simp only [ge_iff_le, hk0, if_true]
        constructor
        · omega
        · have : ((k + split.length : Nat) : Int) ≤ ((sliceBytes data).length : Int) := by
            exact_mod_cast hlen
          simpa using this

/-- Witness of amended C16 at the separator `[44]` and data `[1, 2, 44, 3]`:
advance 3 and token `[1, 2]`, in which the separator does not occur. -/
theorem C16_split_function_witness :
    GetSplitFunc [44] (some [1, 2, 44, 3]) false
      = (((2 + 1 : Nat) : Int), some [1, 2], none) ∧
    ∀ j, ¬ occursAt [44] (sliceBytes (sliceTo (some [1, 2, 44, 3]) 2)) j :=
  ⟨((C16_split_function [44] (some [1, 2, 44, 3]) false).2.1 (by simp [sliceBytes]) 2
      (indexOpt_some (by decide))).1,
   ((C16_split_function [44] (some [1, 2, 44, 3]) false).2.1 (by simp [sliceBytes]) 2
      (indexOpt_some (by decide))).2.2.2 (by simp)⟩

end Util
